import Mathlib

/-!
Verification development for the gym-management dashboard (React + mock REST
backend).  Each page fetches a list from one endpoint, filters/sorts/searches
it in memory, and mirrors CRUD edits into local state on success.  The
definitions below are shallow embeddings of the page-level logic:

* pure helpers (`formatTime`, `enrollmentPercentage`, `getTrainerName`,
  `getMemberName`, the filter effects and `sortItems`) are translated
  directly into Lean functions;
* the stateful fetch/submit/delete handlers become explicit step functions
  `Except ApiError payload → PageState → PageState × List Toast`, where the
  `Except` argument is the outcome of the single REST call the handler makes
  and the `List Toast` output is the notifications issued by the handler;
* JavaScript numbers carrying money amounts are modelled as `ℚ`, integer ids
  and counts as `Int`/`Nat`, and JS strings as Lean `String`
  (`String.data` playing the role of the code-unit sequence).
-/

/-- Outcome of a failed REST call; the pages never inspect the error value,
so a single constructor suffices. -/
inductive ApiError where
  | network
deriving DecidableEq

/-- User-facing toast notification as issued through react-toastify. -/
inductive Toast where
  | success (msg : String)
  | error (msg : String)
deriving DecidableEq

/-- ASCII model of the lowercase mapping JavaScript's `toLowerCase` applies
to each code unit. -/
def charLower (c : Char) : Char :=
  if 65 ≤ c.toNat ∧ c.toNat ≤ 90 then Char.ofNat (c.toNat + 32) else c

/-- Model of JavaScript `String.prototype.toLowerCase` (ASCII range). -/
def jsToLower (s : String) : String :=
  String.mk (s.data.map charLower)

/-- Model of "the needle occurs at the head of the haystack". -/
def leadMatch : List Char → List Char → Bool
  | [], _ => true
  | _ :: _, [] => false
  | a :: as, b :: bs => a == b && leadMatch as bs

/-- Model of "the needle occurs somewhere in the haystack". -/
def containsSub (needle : List Char) : List Char → Bool
  | [] => needle.isEmpty
  | b :: bs => leadMatch needle (b :: bs) || containsSub needle bs

/-- Model of JavaScript `s.includes(sub)`. -/
def jsIncludes (s sub : String) : Bool :=
  containsSub sub.data s.data

/-- Model of JavaScript `String.prototype.split(':')`. -/
def jsSplitColon : List Char → List (List Char)
  | [] => [[]]
  | c :: rest =>
    if c = ':' then [] :: jsSplitColon rest
    else
      match jsSplitColon rest with
      | [] => [[c]]
      | h :: t => (c :: h) :: t

/-- Model of JavaScript `parseInt(s, 10)` on the inputs the schedule page
feeds it: the value of the maximal leading run of decimal digits, `none`
standing for `NaN` when there is no leading digit. -/
def jsParseInt (cs : List Char) : Option Nat :=
  let ds := cs.takeWhile Char.isDigit
  if ds.isEmpty then none
  else some (ds.foldl (fun n c => 10 * n + (c.toNat - 48)) 0)

/-- Decimal digits of a fractional part, emitted until it vanishes or the
fuel runs out (no trailing zeros are ever produced). -/
def fracDigits : Nat → ℚ → List Char
  | 0, _ => []
  | fuel + 1, r =>
    if r = 0 then []
    else
      let d := (⌊r * 10⌋).toNat
      Char.ofNat (48 + d) :: fracDigits fuel (r * 10 - (⌊r * 10⌋ : ℚ))

/-- Model of JavaScript `Number.prototype.toString` on the plain decimal
amounts the mock backend serves: sign, integer digits, and — when the
fractional part is nonzero — a point followed by its digits.  A double's
shortest representation never needs more than 17 digits, where the model
truncates. -/
def jsNumToString (q : ℚ) : String :=
  let a := |q|
  let ip := (⌊a⌋).toNat
  let ds := fracDigits 17 (a - (⌊a⌋ : ℚ))
  (if q < 0 then ("-") else ("")) ++ toString ip ++
    (if ds.isEmpty then ("") else (".") ++ String.mk ds)

namespace Members

/-- The `Member` record of the Members page. -/
structure Member where
  id : Int
  name : String
  email : String
  phone : String
  joinDate : String
  membershipType : String
  membershipStatus : String
  membershipEnd : String
  emergencyContact : String
  age : Int
  gender : String
  goals : String
deriving DecidableEq

/-- Search predicate of the Members filter effect; `term` is the already
lowercased search term, matched against lowercased name and email but
against the raw phone field. -/
def textMatch (term : String) (m : Member) : Bool :=
  jsIncludes (jsToLower m.name) term ||
  jsIncludes (jsToLower m.email) term ||
  jsIncludes m.phone term

/-- The Members page `useEffect` recomputing `filteredMembers` from
`members`, `searchTerm` and `statusFilter`. -/
def filterEffect (members : List Member) (searchTerm statusFilter : String) : List Member :=
  let r1 :=
    if statusFilter ≠ ("All") then
      members.filter (fun m => m.membershipStatus == statusFilter)
    else members
  if searchTerm ≠ ("") then r1.filter (textMatch (jsToLower searchTerm)) else r1

/-- Modelled from the spec: the claimed text-search predicate, a
case-insensitive substring match over the entity's small set of string
fields (here name, email and phone). -/
def specTextMatch (searchTerm : String) (m : Member) : Bool :=
  jsIncludes (jsToLower m.name) (jsToLower searchTerm) ||
  jsIncludes (jsToLower m.email) (jsToLower searchTerm) ||
  jsIncludes (jsToLower m.phone) (jsToLower searchTerm)

/-- Modelled from the spec: the displayed list as claimed — the collection
filtered by the intersection of the case-insensitive text predicate and the
status equality predicate, a selection of 'All' disabling the equality
predicate and an empty search term disabling the text predicate. -/
def specFilteredView (members : List Member) (searchTerm statusFilter : String) :
    List Member :=
  members.filter (fun m =>
    (statusFilter == ("All") || m.membershipStatus == statusFilter) &&
    (searchTerm == ("") || specTextMatch searchTerm m))

/-- In-memory collections of the Members page.  `filteredMembers` is the
displayed list; after a mutation the filter effect recomputes it from
`members`. -/
structure PageState where
  members : List Member
  filteredMembers : List Member
deriving DecidableEq

/-- Step function of `fetchMembers`: on success both collections become the
response body; on failure nothing changes and an error toast is issued. -/
def fetchMembers (res : Except ApiError (List Member)) (s : PageState) :
    PageState × List Toast :=
  match res with
  | .ok data => ({ s with members := data, filteredMembers := data }, [])
  | .error _ => (s, [Toast.error ("Failed to load members")])

/-- Step function of `handleSubmit`: the update branch maps the form over
`members` by id, the create branch appends the backend's response record. -/
def handleSubmit (isEditing : Bool) (memberForm : Member)
    (res : Except ApiError Member) (s : PageState) : PageState × List Toast :=
  if isEditing then
    match res with
    | .ok _ =>
      let updated :=
        s.members.map (fun member => if member.id == memberForm.id then memberForm else member)
      ({ s with members := updated }, [Toast.success ("Member updated successfully")])
    | .error _ => (s, [Toast.error ("Failed to update member")])
  else
    match res with
    | .ok created =>
      ({ s with members := s.members ++ [created] },
        [Toast.success ("Member added successfully")])
    | .error _ => (s, [Toast.error ("Failed to add member")])

/-- Step function of `handleDelete` (after the confirm dialog): on success
`members` keeps exactly the records whose id differs from the deleted one. -/
def handleDelete (idv : Int) (res : Except ApiError Unit) (s : PageState) :
    PageState × List Toast :=
  match res with
  | .ok _ =>
    ({ s with members := s.members.filter (fun member => member.id != idv) },
      [Toast.success ("Member deleted successfully")])
  | .error _ => (s, [Toast.error ("Failed to delete member")])

end Members

namespace Trainers

/-- The `Trainer` record of the Trainers page. -/
structure Trainer where
  id : Int
  name : String
  email : String
  phone : String
  hireDate : String
  specialties : List String
  certifications : List String
  bio : String
  schedule : String
  imageUrl : String
deriving DecidableEq

/-- Search predicate of the Trainers filter effect over the lowercased term. -/
def textMatch (term : String) (t : Trainer) : Bool :=
  jsIncludes (jsToLower t.name) term ||
  jsIncludes (jsToLower t.email) term ||
  t.specialties.any (fun s => jsIncludes (jsToLower s) term)

/-- The Trainers page `useEffect` recomputing `filteredTrainers`; this page
has no status filter. -/
def filterEffect (trainers : List Trainer) (searchTerm : String) : List Trainer :=
  if searchTerm ≠ ("") then trainers.filter (textMatch (jsToLower searchTerm))
  else trainers

/-- In-memory collections of the Trainers page. -/
structure PageState where
  trainers : List Trainer
  filteredTrainers : List Trainer
deriving DecidableEq

/-- Step function of `fetchTrainers`. -/
def fetchTrainers (res : Except ApiError (List Trainer)) (s : PageState) :
    PageState × List Toast :=
  match res with
  | .ok data => ({ s with trainers := data, filteredTrainers := data }, [])
  | .error _ => (s, [Toast.error ("Failed to load trainers")])

/-- Step function of the Trainers `handleSubmit`. -/
def handleSubmit (isEditing : Bool) (trainerForm : Trainer)
    (res : Except ApiError Trainer) (s : PageState) : PageState × List Toast :=
  if isEditing then
    match res with
    | .ok _ =>
      let updated :=
        s.trainers.map (fun trainer => if trainer.id == trainerForm.id then trainerForm else trainer)
      ({ s with trainers := updated }, [Toast.success ("Trainer updated successfully")])
    | .error _ => (s, [Toast.error ("Failed to update trainer")])
  else
    match res with
    | .ok created =>
      ({ s with trainers := s.trainers ++ [created] },
        [Toast.success ("Trainer added successfully")])
    | .error _ => (s, [Toast.error ("Failed to add trainer")])

/-- Step function of the Trainers `handleDelete`. -/
def handleDelete (idv : Int) (res : Except ApiError Unit) (s : PageState) :
    PageState × List Toast :=
  match res with
  | .ok _ =>
    ({ s with trainers := s.trainers.filter (fun trainer => trainer.id != idv) },
      [Toast.success ("Trainer deleted successfully")])
  | .error _ => (s, [Toast.error ("Failed to delete trainer")])

end Trainers

namespace Dashboard

/-- The reduced `Member` record the Dashboard page declares. -/
structure Member where
  id : Int
  name : String
  email : String
  membershipType : String
  membershipStatus : String
  joinDate : String
deriving DecidableEq

/-- The `StatsData` record of the Dashboard page. -/
structure StatsData where
  totalMembers : Nat
  activeMembers : Nat
  totalTrainers : Nat
  totalClasses : Nat
  recentPayments : Nat
deriving DecidableEq

/-- Local state of the Dashboard page relevant to the fetched data. -/
structure PageState where
  stats : StatsData
  activeMembers : List Member
deriving DecidableEq

/-- Step function of `fetchDashboardData`.  The trainers and classes lists
are consumed only through their `.length`, and the recent-payment count
compares payment dates against the wall clock (`Date.now()`), so those three
quantities enter the step as the numbers they contribute.  On failure the
handler only logs to the console: the state is unchanged and no toast is
issued. -/
def fetchDashboardData
    (res : Except ApiError (List Member × Nat × Nat × Nat)) (s : PageState) :
    PageState × List Toast :=
  match res with
  | .ok (membersData, totalTrainers, totalClasses, recentPayments) =>
    let active := membersData.filter (fun member => member.membershipStatus == ("Active"))
    let stats : StatsData :=
      { totalMembers := membersData.length
        activeMembers := active.length
        totalTrainers := totalTrainers
        totalClasses := totalClasses
        recentPayments := recentPayments }
    ({ stats := stats, activeMembers := active.take 5 }, [])
  | .error _ => (s, [])

end Dashboard

namespace Payments

/-- The `Payment` record of the Payments page; the JS `number` amount is
modelled as an exact rational. -/
structure Payment where
  id : Int
  memberId : Int
  amount : ℚ
  date : String
  type : String
  status : String
  method : String
deriving DecidableEq

/-- The reduced `Member` record the Payments page declares. -/
structure Member where
  id : Int
  name : String
  email : String
deriving DecidableEq

/-- The sortable fields of `Payment` (`keyof Payment`). -/
inductive Key where
  | id
  | memberId
  | amount
  | date
  | type
  | status
  | method
deriving DecidableEq

/-- Sort direction. -/
inductive Direction where
  | asc
  | desc
deriving DecidableEq

/-- The `SortConfig` record: selected key (or none) and direction. -/
structure SortConfig where
  key : Option Key
  direction : Direction
deriving DecidableEq

/-- Strict `a[key] < b[key]` comparison of the source comparator: numeric
order on numeric fields, lexicographic code-unit order on string fields. -/
def keyLt (k : Key) (a b : Payment) : Bool :=
  match k with
  | .id => decide (a.id < b.id)
  | .memberId => decide (a.memberId < b.memberId)
  | .amount => decide (a.amount < b.amount)
  | .date => decide (a.date < b.date)
  | .type => decide (a.type < b.type)
  | .status => decide (a.status < b.status)
  | .method => decide (a.method < b.method)

/-- The `sortItems` helper.  `Array.prototype.sort` with the source's
three-way comparator `cmp` returns a list in which consecutive elements
satisfy `cmp a b ≤ 0`; for this comparator that relation is `¬(a[key] >
b[key])` ascending and `¬(a[key] < b[key])` descending, so the call is
modelled by `mergeSort` over that boolean relation. -/
def sortItems (items : List Payment) (cfg : SortConfig) : List Payment :=
  match cfg.key with
  | none => items
  | some k =>
    items.mergeSort (fun a b =>
      match cfg.direction with
      | .asc => !(keyLt k b a)
      | .desc => !(keyLt k a b))

/-- The `requestSort` handler: pick the new direction, store the new config
and re-sort the displayed list with it. -/
def requestSort (cfg : SortConfig) (filteredPayments : List Payment) (k : Key) :
    SortConfig × List Payment :=
  let direction :=
    if cfg.key = some k ∧ cfg.direction = Direction.asc then Direction.desc
    else Direction.asc
  let newConfig : SortConfig := ⟨some k, direction⟩
  (newConfig, sortItems filteredPayments newConfig)

/-- Search predicate of the Payments `applyFilters`; `term` is the already
lowercased search term.  The payment's member is resolved by linear scan
and, through optional chaining, a missing member makes the name and email
disjuncts falsy; the amount is stringified (not lowercased) and the method
is lowercased. -/
def textMatch (members : List Member) (term : String) (payment : Payment) : Bool :=
  match members.find? (fun m => m.id == payment.memberId) with
  | some member =>
    jsIncludes (jsToLower member.name) term ||
    jsIncludes (jsToLower member.email) term ||
    jsIncludes (jsNumToString payment.amount) term ||
    jsIncludes (jsToLower payment.method) term
  | none =>
    jsIncludes (jsNumToString payment.amount) term ||
    jsIncludes (jsToLower payment.method) term

/-- The Payments `applyFilters`: status filter, then search filter, then
`sortItems` under the current sort configuration; the result is stored as
the displayed list. -/
def applyFilters (payments : List Payment) (members : List Member)
    (searchTerm statusFilter : String) (cfg : SortConfig) : List Payment :=
  let result :=
    if statusFilter ≠ ("All") then
      payments.filter (fun payment => payment.status == statusFilter)
    else payments
  let result :=
    if searchTerm ≠ ("") then result.filter (textMatch members (jsToLower searchTerm))
    else result
  sortItems result cfg

/-- Order property "the list is ordered by field `k` in direction `dir`":
ascending means no element is followed by one strictly smaller on `k`,
descending means no element is followed by one strictly larger on `k`. -/
def sortedByKey (k : Key) (dir : Direction) (l : List Payment) : Prop :=
  match dir with
  | .asc => l.Pairwise (fun a b => keyLt k b a = false)
  | .desc => l.Pairwise (fun a b => keyLt k a b = false)

/-- The `getMemberName` resolver: first member whose id matches, else the
fixed placeholder. -/
def getMemberName (members : List Member) (memberId : Int) : String :=
  match members.find? (fun m => m.id == memberId) with
  | some m => m.name
  | none => ("Unknown Member")

/-- Local state of the Payments page. -/
structure PageState where
  payments : List Payment
  members : List Member
  filteredPayments : List Payment
  sortConfig : SortConfig
deriving DecidableEq

/-- Step function of `fetchPaymentsData` (the two parallel GETs succeed or
fail together). -/
def fetchPaymentsData
    (res : Except ApiError (List Payment × List Member)) (s : PageState) :
    PageState × List Toast :=
  match res with
  | .ok (paymentsData, membersData) =>
    ({ s with
        payments := paymentsData
        members := membersData
        filteredPayments := sortItems paymentsData s.sortConfig }, [])
  | .error _ => (s, [Toast.error ("Failed to load payments")])

end Payments

namespace Schedule

/-- The reduced `Trainer` record the Schedule page declares. -/
structure Trainer where
  id : Int
  name : String
deriving DecidableEq

/-- The `ClassSchedule` record of the Schedule page. -/
structure ClassSchedule where
  id : Int
  name : String
  trainer : Int
  timeStart : String
  timeEnd : String
  days : List String
  capacity : Int
  enrolled : Int
  location : String
  description : String
deriving DecidableEq

/-- The `getTrainerName` resolver: first trainer whose id matches, else the
fixed placeholder. -/
def getTrainerName (trainers : List Trainer) (idv : Int) : String :=
  match trainers.find? (fun t => t.id == idv) with
  | some t => t.name
  | none => ("Unknown")

/-- The `formatTime` helper: split on the colon, parse the hour, and render
in 12-hour form.  When `parseInt` yields `NaN` the source's `hour >= 12` is
false and `NaN % 12 || 12` is `12`, giving the `none` branch below. -/
def formatTime (time : String) : String :=
  let parts := jsSplitColon time.data
  let hoursCs := parts.getD 0 []
  let minutesCs := parts.getD 1 []
  match jsParseInt hoursCs with
  | some hour =>
    let suffix := if 12 ≤ hour then ("PM") else ("AM")
    let displayHour := if hour % 12 = 0 then 12 else hour % 12
    toString displayHour ++ (":") ++ String.mk minutesCs ++ (" ") ++ suffix
  | none => ("12:") ++ String.mk minutesCs ++ (" AM")

/-- The `enrollmentPercentage` helper, over exact rationals;
`Math.round` rounds halves toward positive infinity, as does `round`. -/
def enrollmentPercentage (enrolled capacity : Int) : Int :=
  round (((enrolled : ℚ) / (capacity : ℚ)) * 100)

/-- Local state of the Schedule page. -/
structure PageState where
  classes : List ClassSchedule
  trainers : List Trainer
deriving DecidableEq

/-- Step function of `fetchScheduleData` (the two parallel GETs succeed or
fail together). -/
def fetchScheduleData
    (res : Except ApiError (List ClassSchedule × List Trainer)) (s : PageState) :
    PageState × List Toast :=
  match res with
  | .ok (classesData, trainersData) =>
    ({ classes := classesData, trainers := trainersData }, [])
  | .error _ => (s, [Toast.error ("Failed to load schedule")])

end Schedule

/-- Concrete payment of member 1 used to exhibit the Payments page's
re-sorting of the displayed list. -/
def cexPayment1 : Payments.Payment := ⟨1, 1, 0, (""), (""), ("Paid"), ("")⟩

/-- Concrete payment of member 2 used to exhibit the Payments page's
re-sorting of the displayed list. -/
def cexPayment2 : Payments.Payment := ⟨2, 2, 0, (""), (""), ("Paid"), ("")⟩

/-! Helper lemmas shared by the claim theorems. -/

theorem strMk_data (s : String) : String.mk s.data = s := by
  cases s
  rfl

theorem jsSplitColon_noColon (xs : List Char) (h : ':' ∉ xs) :
    jsSplitColon xs = [xs] := by
  induction xs with
  | nil => rfl
  | cons c rest ih =>
    have hc : ¬ c = ':' := fun hc => h (hc ▸ List.mem_cons_self c rest)
    have hr : ':' ∉ rest := fun hr => h (List.mem_cons_of_mem c hr)
    simp [jsSplitColon, hc, ih hr]

theorem jsSplitColon_append (xs ys : List Char) (h : ':' ∉ xs) :
    jsSplitColon (xs ++ ':' :: ys) = xs :: jsSplitColon ys := by
  induction xs with
  | nil => simp [jsSplitColon]
  | cons c rest ih =>
    have hc : ¬ c = ':' := fun hc => h (hc ▸ List.mem_cons_self c rest)
    have hr : ':' ∉ rest := fun hr => h (List.mem_cons_of_mem c hr)
    simp [jsSplitColon, hc, ih hr]

theorem findFirst {α : Type} (p : α → Bool) (pre : List α) (t : α) (post : List α)
    (hpre : ∀ u ∈ pre, p u = false) (ht : p t = true) :
    List.find? p (pre ++ t :: post) = some t := by
  induction pre with
  | nil => simp [List.find?_cons, ht]
  | cons a rest ih =>
    have ha : p a = false := hpre a (List.mem_cons_self a rest)
    have hrest : ∀ u ∈ rest, p u = false := fun u hu => hpre u (List.mem_cons_of_mem a hu)
    simp [List.find?_cons, ha, ih hrest]

theorem count_filter_decide {α : Type} [DecidableEq α] (p : α → Bool) (m : α)
    (l : List α) : (l.filter p).count m = if p m then l.count m else 0 := by
  induction l with
  | nil => simp
  | cons a t ih =>
    by_cases hp : p a
    · by_cases ham : a = m
      · subst ham
        simp [List.filter_cons, hp, List.count_cons, ih]
      · simp [List.filter_cons, hp, List.count_cons, ham, ih]
    · by_cases ham : a = m
      · subst ham
        simp [List.filter_cons, hp, List.count_cons, ih]
      · simp [List.filter_cons, hp, List.count_cons, ham, ih]

theorem lt_conn_of_linear {β : Type} [LinearOrder β] (x y z : β) :
    x < z → x < y ∨ y < z := fun h =>
  (lt_or_ge x y).imp id (fun hyx => lt_of_le_of_lt hyx h)

theorem pairwise_of_mergeSort_lt {α : Type} (lt : α → α → Bool)
    (asym : ∀ a b, lt a b = true → lt b a = false)
    (conn : ∀ a b c, lt c a = true → lt c b = true ∨ lt b a = true)
    (l : List α) :
    (l.mergeSort (fun a b => !(lt b a))).Pairwise (fun a b => lt b a = false) := by
  have htrans : ∀ a b c : α,
      (!(lt b a)) = true → (!(lt c b)) = true → (!(lt c a)) = true := by
    intro a b c h1 h2
    simp only [Bool.not_eq_true'] at h1 h2 ⊢
    cases hca : lt c a with
    | false => rfl
    | true =>
      rcases conn a b c hca with h | h
      · rw [h] at h2
        exact absurd h2 (by simp)
      · rw [h] at h1
        exact absurd h1 (by simp)
  have htotal : ∀ a b : α, ((!(lt b a)) || (!(lt a b))) = true := by
    intro a b
    cases h : lt b a with
    | false => simp
    | true => simp [asym b a h]
  have hs := @List.sorted_mergeSort α (fun a b => !(lt b a)) htrans htotal l
  exact hs.imp (fun hab => by simpa using hab)

theorem keyLt_asym (k : Payments.Key) (a b : Payments.Payment) :
    Payments.keyLt k a b = true → Payments.keyLt k b a = false := by
  cases k <;>
    simp only [Payments.keyLt, decide_eq_true_eq, decide_eq_false_iff_not] <;>
    exact fun h => lt_asymm h

theorem keyLt_conn (k : Payments.Key) (a b c : Payments.Payment) :
    Payments.keyLt k c a = true →
      Payments.keyLt k c b = true ∨ Payments.keyLt k b a = true := by
  cases k <;>
    simp only [Payments.keyLt, decide_eq_true_eq] <;>
    exact lt_conn_of_linear _ _ _

/-! Claim theorems. -/

/-- C6: for every numeric foreign-key reference and fetched reference list,
name resolution returns the name of the first record in the list whose id
equals the reference, and the fixed placeholder string when no record in the
list has that id — for the schedule's trainer references and for a payment's
member references alike. -/
theorem fk_name_resolution (trainers : List Schedule.Trainer) (tid : Int)
    (members : List Payments.Member) (mid : Int) :
    ((∀ t ∈ trainers, t.id ≠ tid) →
      Schedule.getTrainerName trainers tid = ("Unknown")) ∧
    (∀ (pre : List Schedule.Trainer) (t : Schedule.Trainer)
        (post : List Schedule.Trainer),
      trainers = pre ++ t :: post → (∀ u ∈ pre, u.id ≠ tid) → t.id = tid →
      Schedule.getTrainerName trainers tid = t.name) ∧
    ((∀ m ∈ members, m.id ≠ mid) →
      Payments.getMemberName members mid = ("Unknown Member")) ∧
    (∀ (pre : List Payments.Member) (m : Payments.Member)
        (post : List Payments.Member),
      members = pre ++ m :: post → (∀ u ∈ pre, u.id ≠ mid) → m.id = mid →
      Payments.getMemberName members mid = m.name) := by
  refine ⟨?_, ?_, ?_, ?_⟩
  · intro h
    unfold Schedule.getTrainerName
    have hn : trainers.find? (fun t => t.id == tid) = none :=
      List.find?_eq_none.mpr (by intro x hx; simpa using h x hx)
    rw [hn]
  · intro pre t post heq hpre ht
    subst heq
    unfold Schedule.getTrainerName
    rw [findFirst (fun t => t.id == tid) pre t post
      (by intro u hu; simpa using hpre u hu) (by simpa using ht)]
  · intro h
    unfold Payments.getMemberName
    have hn : members.find? (fun m => m.id == mid) = none :=
      List.find?_eq_none.mpr (by intro x hx; simpa using h x hx)
    rw [hn]
  · intro pre m post heq hpre hm
    subst heq
    unfold Payments.getMemberName
    rw [findFirst (fun m => m.id == mid) pre m post
      (by intro u hu; simpa using hpre u hu) (by simpa using hm)]

/-- Witness for C6: in a trainer list with two records of id 2, resolution
of id 2 returns the name of the first of them. -/
theorem fk_name_resolution_witness :
    ((⟨1, ("Alice")⟩ : Schedule.Trainer).id ≠ 2) ∧
    Schedule.getTrainerName
      [⟨1, ("Alice")⟩, ⟨2, ("Bob")⟩, ⟨2, ("Carol")⟩] 2 = ("Bob") :=
  ⟨by decide,
    (fk_name_resolution [⟨1, ("Alice")⟩, ⟨2, ("Bob")⟩, ⟨2, ("Carol")⟩] 2 [] 0).2.1
      [⟨1, ("Alice")⟩] ⟨2, ("Bob")⟩ [⟨2, ("Carol")⟩] rfl (by decide) rfl⟩

/-- C7: the create branch appends the backend's response record to the local
collection without comparing its id against existing records, so
id-uniqueness is not preserved: from a singleton collection whose only id is
1 and a backend response that also carries id 1, the post-create collection
holds two records with id 1. -/
theorem create_appends_without_id_check :
    (∀ (s : Members.PageState) (form created : Members.Member),
      (Members.handleSubmit false form (Except.ok created) s).1.members =
        s.members ++ [created]) ∧
    ((Members.handleSubmit false
        ⟨1, ("Ann"), (""), (""), (""), (""), ("Active"), (""), (""), 18, (""), ("")⟩
        (Except.ok
          ⟨1, ("Bob"), (""), (""), (""), (""), ("Active"), (""), (""), 21, (""), ("")⟩)
        ⟨[⟨1, ("Ann"), (""), (""), (""), (""), ("Active"), (""), (""), 18, (""), ("")⟩],
         [⟨1, ("Ann"), (""), (""), (""), (""), ("Active"), (""), (""), 18, (""), ("")⟩]⟩).1.members.map
        Members.Member.id = [1, 1]) := by
  refine ⟨?_, by decide⟩
  intro s form created
  rfl

/-- C8: on a successful dashboard fetch, the Active Members panel holds at
most 5 members, each with membershipStatus 'Active', in fetched order (a
sublist of the fetched list), and the active-member statistic counts the
members of the full fetched list whose membershipStatus is 'Active'. -/
theorem dashboard_active_members_panel (membersData : List Dashboard.Member)
    (tn cn rn : Nat) (s : Dashboard.PageState) :
    (Dashboard.fetchDashboardData
        (Except.ok (membersData, tn, cn, rn)) s).1.activeMembers.length ≤ 5 ∧
    (∀ m ∈ (Dashboard.fetchDashboardData
        (Except.ok (membersData, tn, cn, rn)) s).1.activeMembers,
      m.membershipStatus = ("Active")) ∧
    (Dashboard.fetchDashboardData
        (Except.ok (membersData, tn, cn, rn)) s).1.activeMembers.Sublist
      membersData ∧
    (Dashboard.fetchDashboardData
        (Except.ok (membersData, tn, cn, rn)) s).1.stats.activeMembers =
      membersData.countP (fun m => m.membershipStatus == ("Active")) := by
  have hact : (Dashboard.fetchDashboardData
      (Except.ok (membersData, tn, cn, rn)) s).1.activeMembers =
      (membersData.filter (fun m => m.membershipStatus == ("Active"))).take 5 := rfl
  have hstats : (Dashboard.fetchDashboardData
      (Except.ok (membersData, tn, cn, rn)) s).1.stats.activeMembers =
      (membersData.filter (fun m => m.membershipStatus == ("Active"))).length := rfl
  refine ⟨?_, ?_, ?_, ?_⟩
  · rw [hact]
    exact List.length_take_le 5 _
  · intro m hm
    rw [hact] at hm
    have hmf := List.take_subset 5 _ hm
    have := (List.mem_filter.mp hmf).2
    simpa using this
  · rw [hact]
    exact (List.take_sublist 5 _).trans (List.filter_sublist membersData)
  · rw [hstats, List.countP_eq_length_filter]

/-- Witness for C8: with two fetched members of which one is Active, the
member shown in the panel has status 'Active'. -/
theorem dashboard_active_members_panel_witness :
    (⟨1, ("Ann"), (""), (""), ("Active"), ("")⟩ : Dashboard.Member) ∈
      (Dashboard.fetchDashboardData
        (Except.ok
          ([⟨1, ("Ann"), (""), (""), ("Active"), ("")⟩,
            ⟨2, ("Bob"), (""), (""), ("Inactive"), ("")⟩], 0, 0, 0))
        ⟨⟨0, 0, 0, 0, 0⟩, []⟩).1.activeMembers ∧
    (⟨1, ("Ann"), (""), (""), ("Active"), ("")⟩ :
      Dashboard.Member).membershipStatus = ("Active") :=
  ⟨by decide,
    (dashboard_active_members_panel
      [⟨1, ("Ann"), (""), (""), ("Active"), ("")⟩,
       ⟨2, ("Bob"), (""), (""), ("Inactive"), ("")⟩] 0 0 0
      ⟨⟨0, 0, 0, 0, 0⟩, []⟩).2.1
      ⟨1, ("Ann"), (""), (""), ("Active"), ("")⟩ (by decide)⟩

/-- C10: for a class with nonzero capacity, `enrollmentPercentage` returns
the integer nearest to `100 × enrolled / capacity` — it is within one half
of the exact ratio, and at least as close to it as every integer. -/
theorem enrollmentPercentage_nearest (enrolled capacity : Int)
    (hcap : capacity ≠ 0) :
    |(Schedule.enrollmentPercentage enrolled capacity : ℚ) -
        100 * (enrolled : ℚ) / (capacity : ℚ)| ≤ 1 / 2 ∧
    ∀ z : Int,
      |(Schedule.enrollmentPercentage enrolled capacity : ℚ) -
          100 * (enrolled : ℚ) / (capacity : ℚ)| ≤
        |(z : ℚ) - 100 * (enrolled : ℚ) / (capacity : ℚ)| := by
  have hx : (100 : ℚ) * (enrolled : ℚ) / (capacity : ℚ) =
      ((enrolled : ℚ) / (capacity : ℚ)) * 100 := by ring
  constructor
  · rw [hx, abs_sub_comm]
    exact @abs_sub_round ℚ _ _ (((enrolled : ℚ) / (capacity : ℚ)) * 100)
  · intro z
    rw [hx, abs_sub_comm, abs_sub_comm ((z : ℚ)) _]
    exact @round_le ℚ _ _ (((enrolled : ℚ) / (capacity : ℚ)) * 100) z

/-- Witness for C10 at enrolled 1, capacity 8: the capacity is nonzero and
the returned percentage is within one half of 12.5. -/
theorem enrollmentPercentage_nearest_witness :
    ((8 : Int) ≠ 0) ∧
    |(Schedule.enrollmentPercentage 1 8 : ℚ) -
        100 * ((1 : Int) : ℚ) / ((8 : Int) : ℚ)| ≤ 1 / 2 :=
  ⟨by decide, (enrollmentPercentage_nearest 1 8 (by decide)).1⟩

/-- C3: when the delete REST call succeeds, the local collection becomes the
previous collection with every record of the deleted id removed: the result
is a sublist of the previous collection (nothing added, nothing reordered),
every record of the deleted id is gone, and every other record keeps its
exact multiplicity — on the Members page and the Trainers page alike. -/
theorem delete_removes_exactly_matching_id (s : Members.PageState) (idv : Int)
    (ts : Trainers.PageState) (tid : Int) :
    ((Members.handleDelete idv (Except.ok ()) s).1.members.Sublist s.members) ∧
    (∀ m : Members.Member,
      (Members.handleDelete idv (Except.ok ()) s).1.members.count m =
        if m.id = idv then 0 else s.members.count m) ∧
    (∀ m ∈ (Members.handleDelete idv (Except.ok ()) s).1.members, m.id ≠ idv) ∧
    ((Trainers.handleDelete tid (Except.ok ()) ts).1.trainers.Sublist ts.trainers) ∧
    (∀ t : Trainers.Trainer,
      (Trainers.handleDelete tid (Except.ok ()) ts).1.trainers.count t =
        if t.id = tid then 0 else ts.trainers.count t) ∧
    (∀ t ∈ (Trainers.handleDelete tid (Except.ok ()) ts).1.trainers, t.id ≠ tid) := by
  have hm : (Members.handleDelete idv (Except.ok ()) s).1.members =
      s.members.filter (fun member => member.id != idv) := rfl
  have ht : (Trainers.handleDelete tid (Except.ok ()) ts).1.trainers =
      ts.trainers.filter (fun trainer => trainer.id != tid) := rfl
  refine ⟨?_, ?_, ?_, ?_, ?_, ?_⟩
  · rw [hm]
    exact List.filter_sublist s.members
  · intro m
    rw [hm, count_filter_decide (fun member => member.id != idv) m s.members]
    by_cases h : m.id = idv <;> simp [h]
  · intro m hmem
    rw [hm] at hmem
    have := (List.mem_filter.mp hmem).2
    simpa using this
  · rw [ht]
    exact List.filter_sublist ts.trainers
  · intro t
    rw [ht, count_filter_decide (fun trainer => trainer.id != tid) t ts.trainers]
    by_cases h : t.id = tid <;> simp [h]
  · intro t htmem
    rw [ht] at htmem
    have := (List.mem_filter.mp htmem).2
    simpa using this

/-- Witness for C3: deleting id 1 from a two-member collection keeps the
member of id 2, whose id indeed differs from the deleted id. -/
theorem delete_removes_exactly_matching_id_witness :
    (⟨2, ("Bob"), (""), (""), (""), (""), ("Active"), (""), (""), 30, (""), ("")⟩ :
        Members.Member) ∈
      (Members.handleDelete 1 (Except.ok ())
        ⟨[⟨1, ("Ann"), (""), (""), (""), (""), ("Active"), (""), (""), 18, (""), ("")⟩,
          ⟨2, ("Bob"), (""), (""), (""), (""), ("Active"), (""), (""), 30, (""), ("")⟩],
         []⟩).1.members ∧
    (⟨2, ("Bob"), (""), (""), (""), (""), ("Active"), (""), (""), 30, (""), ("")⟩ :
      Members.Member).id ≠ 1 :=
  ⟨by decide,
    (delete_removes_exactly_matching_id
      ⟨[⟨1, ("Ann"), (""), (""), (""), (""), ("Active"), (""), (""), 18, (""), ("")⟩,
        ⟨2, ("Bob"), (""), (""), (""), (""), ("Active"), (""), (""), 30, (""), ("")⟩],
       []⟩ 1 ⟨[], []⟩ 0).2.2.1
      ⟨2, ("Bob"), (""), (""), (""), (""), ("Active"), (""), (""), 30, (""), ("")⟩
      (by decide)⟩

/-- C4: when the update REST call succeeds, every record whose id equals the
form's id is replaced in place by the form contents and every record with a
different id is unchanged in content and position (the length is preserved
and each position is mapped individually) — on the Members page and the
Trainers page alike. -/
theorem update_replaces_only_matching_id (s : Members.PageState)
    (memberForm r : Members.Member) (ts : Trainers.PageState)
    (trainerForm tr : Trainers.Trainer) :
    ((Members.handleSubmit true memberForm (Except.ok r) s).1.members.length =
      s.members.length) ∧
    (∀ (i : Nat) (m : Members.Member), s.members[i]? = some m →
      (m.id = memberForm.id →
        (Members.handleSubmit true memberForm (Except.ok r) s).1.members[i]? =
          some memberForm) ∧
      (m.id ≠ memberForm.id →
        (Members.handleSubmit true memberForm (Except.ok r) s).1.members[i]? =
          some m)) ∧
    ((Trainers.handleSubmit true trainerForm (Except.ok tr) ts).1.trainers.length =
      ts.trainers.length) ∧
    (∀ (i : Nat) (t : Trainers.Trainer), ts.trainers[i]? = some t →
      (t.id = trainerForm.id →
        (Trainers.handleSubmit true trainerForm (Except.ok tr) ts).1.trainers[i]? =
          some trainerForm) ∧
      (t.id ≠ trainerForm.id →
        (Trainers.handleSubmit true trainerForm (Except.ok tr) ts).1.trainers[i]? =
          some t)) := by
  have hm : (Members.handleSubmit true memberForm (Except.ok r) s).1.members =
      s.members.map
        (fun member => if member.id == memberForm.id then memberForm else member) := rfl
  have ht : (Trainers.handleSubmit true trainerForm (Except.ok tr) ts).1.trainers =
      ts.trainers.map
        (fun trainer => if trainer.id == trainerForm.id then trainerForm else trainer) := rfl
  refine ⟨?_, ?_, ?_, ?_⟩
  · rw [hm, List.length_map]
  · intro i m hi
    rw [hm, List.getElem?_map, hi]
    constructor
    · intro hid
      simp [hid]
    · intro hid
      simp [hid]
  · rw [ht, List.length_map]
  · intro i t hi
    rw [ht, List.getElem?_map, hi]
    constructor
    · intro hid
      simp [hid]
    · intro hid
      simp [hid]

/-- Witness for C4: updating the record of id 1 in a two-member collection
replaces position 0 by the form and keeps position 1 unchanged. -/
theorem update_replaces_only_matching_id_witness :
    ([⟨1, ("Ann"), (""), (""), (""), (""), ("Active"), (""), (""), 18, (""), ("")⟩,
      ⟨2, ("Bob"), (""), (""), (""), (""), ("Active"), (""), (""), 30, (""), ("")⟩] :
        List Members.Member)[0]? =
      some ⟨1, ("Ann"), (""), (""), (""), (""), ("Active"), (""), (""), 18, (""), ("")⟩ ∧
    (Members.handleSubmit true
        ⟨1, ("Amy"), (""), (""), (""), (""), ("Inactive"), (""), (""), 19, (""), ("")⟩
        (Except.ok
          ⟨1, ("Amy"), (""), (""), (""), (""), ("Inactive"), (""), (""), 19, (""), ("")⟩)
        ⟨[⟨1, ("Ann"), (""), (""), (""), (""), ("Active"), (""), (""), 18, (""), ("")⟩,
          ⟨2, ("Bob"), (""), (""), (""), (""), ("Active"), (""), (""), 30, (""), ("")⟩],
         []⟩).1.members[0]? =
      some ⟨1, ("Amy"), (""), (""), (""), (""), ("Inactive"), (""), (""), 19, (""), ("")⟩ :=
  ⟨by decide,
    ((update_replaces_only_matching_id
      ⟨[⟨1, ("Ann"), (""), (""), (""), (""), ("Active"), (""), (""), 18, (""), ("")⟩,
        ⟨2, ("Bob"), (""), (""), (""), (""), ("Active"), (""), (""), 30, (""), ("")⟩],
       []⟩
      ⟨1, ("Amy"), (""), (""), (""), (""), ("Inactive"), (""), (""), 19, (""), ("")⟩
      ⟨1, ("Amy"), (""), (""), (""), (""), ("Inactive"), (""), (""), 19, (""), ("")⟩
      ⟨[], []⟩
      ⟨0, (""), (""), (""), (""), [], [], (""), (""), ("")⟩
      ⟨0, (""), (""), (""), (""), [], [], (""), (""), ("")⟩).2.1 0
      ⟨1, ("Ann"), (""), (""), (""), (""), ("Active"), (""), (""), 18, (""), ("")⟩
      (by decide)).1 rfl⟩

/-- C5 (amended): when any REST call of the Members, Trainers, Payments or
Schedule pages fails, the page state is left exactly as it was and exactly
one error toast is issued; when the Dashboard fetch fails the state is also
left unchanged but no notification at all is issued.  Each handler consumes
the outcome of a single call, so no retry occurs. -/
theorem rest_failure_preserves_state (err : ApiError) (s : Members.PageState)
    (memberForm : Members.Member) (idv : Int) (ts : Trainers.PageState)
    (trainerForm : Trainers.Trainer) (tid : Int) (ps : Payments.PageState)
    (ss : Schedule.PageState) (ds : Dashboard.PageState) :
    Members.fetchMembers (Except.error err) s =
      (s, [Toast.error ("Failed to load members")]) ∧
    Members.handleSubmit true memberForm (Except.error err) s =
      (s, [Toast.error ("Failed to update member")]) ∧
    Members.handleSubmit false memberForm (Except.error err) s =
      (s, [Toast.error ("Failed to add member")]) ∧
    Members.handleDelete idv (Except.error err) s =
      (s, [Toast.error ("Failed to delete member")]) ∧
    Trainers.fetchTrainers (Except.error err) ts =
      (ts, [Toast.error ("Failed to load trainers")]) ∧
    Trainers.handleSubmit true trainerForm (Except.error err) ts =
      (ts, [Toast.error ("Failed to update trainer")]) ∧
    Trainers.handleSubmit false trainerForm (Except.error err) ts =
      (ts, [Toast.error ("Failed to add trainer")]) ∧
    Trainers.handleDelete tid (Except.error err) ts =
      (ts, [Toast.error ("Failed to delete trainer")]) ∧
    Payments.fetchPaymentsData (Except.error err) ps =
      (ps, [Toast.error ("Failed to load payments")]) ∧
    Schedule.fetchScheduleData (Except.error err) ss =
      (ss, [Toast.error ("Failed to load schedule")]) ∧
    Dashboard.fetchDashboardData (Except.error err) ds = (ds, []) :=
  ⟨rfl, rfl, rfl, rfl, rfl, rfl, rfl, rfl, rfl, rfl, rfl⟩

/-- Counterexample for C5 as stated: a failing Dashboard fetch leaves the
state unchanged but issues no user-facing notification at all, contradicting
"a user-facing error notification is issued" for every failing fetch. -/
theorem dashboard_fetch_failure_silent :
    Dashboard.fetchDashboardData (Except.error ApiError.network)
        ⟨⟨0, 0, 0, 0, 0⟩, []⟩ =
      (⟨⟨0, 0, 0, 0, 0⟩, []⟩, ([] : List Toast)) := rfl

/-- C1 (amended): for every fetched collection, search term and status
selection, the displayed list is the collection filtered by the
intersection of the code's text predicate and the status equality
predicate, where a status selection of 'All' disables the equality
predicate and an empty search term disables the text predicate — except
that the Payments page additionally re-sorts this filtered collection
under its current sort configuration.  The Members text predicate matches
the lowercased term case-insensitively against name and email but
case-sensitively against the raw phone field; the Trainers page (no status
field) intersects only its text predicate; the Payments text predicate
resolves the payment's member and matches the member's name and email
case-insensitively, the stringified amount case-sensitively, and the
method case-insensitively. -/
theorem list_filter_intersection :
    (∀ (members : List Members.Member) (searchTerm statusFilter : String),
      Members.filterEffect members searchTerm statusFilter =
        members.filter (fun m =>
          (statusFilter == ("All") || m.membershipStatus == statusFilter) &&
          (searchTerm == ("") || Members.textMatch (jsToLower searchTerm) m))) ∧
    (∀ (trainers : List Trainers.Trainer) (searchTerm : String),
      Trainers.filterEffect trainers searchTerm =
        trainers.filter (fun t =>
          searchTerm == ("") || Trainers.textMatch (jsToLower searchTerm) t)) ∧
    (∀ (payments : List Payments.Payment) (pmembers : List Payments.Member)
        (searchTerm statusFilter : String) (cfg : Payments.SortConfig),
      Payments.applyFilters payments pmembers searchTerm statusFilter cfg =
        Payments.sortItems
          (payments.filter (fun p =>
            (statusFilter == ("All") || p.status == statusFilter) &&
            (searchTerm == ("") ||
              Payments.textMatch pmembers (jsToLower searchTerm) p)))
          cfg) := by
  refine ⟨?_, ?_, ?_⟩
  · intro members searchTerm statusFilter
    unfold Members.filterEffect
    by_cases h1 : statusFilter = ("All")
    · subst h1
      have hb1 : (("All" : String) == ("All")) = true := by simp
      by_cases h2 : searchTerm = ("")
      · subst h2
        simp
      · have hb2 : (searchTerm == ("")) = false := by simpa using h2
        simp [h2, hb1, hb2]
    · have hb1 : (statusFilter == ("All")) = false := by simpa using h1
      by_cases h2 : searchTerm = ("")
      · subst h2
        simp [h1, hb1]
      · have hb2 : (searchTerm == ("")) = false := by simpa using h2
        simp [h1, h2, hb1, hb2, List.filter_filter, Bool.and_comm]
  · intro trainers searchTerm
    unfold Trainers.filterEffect
    by_cases h2 : searchTerm = ("")
    · subst h2
      simp
    · have hb2 : (searchTerm == ("")) = false := by simpa using h2
      simp [h2, hb2]
  · intro payments pmembers searchTerm statusFilter cfg
    unfold Payments.applyFilters
    by_cases h1 : statusFilter = ("All")
    · subst h1
      have hb1 : (("All" : String) == ("All")) = true := by simp
      by_cases h2 : searchTerm = ("")
      · subst h2
        simp
      · have hb2 : (searchTerm == ("")) = false := by simpa using h2
        simp [h2, hb1, hb2]
    · have hb1 : (statusFilter == ("All")) = false := by simpa using h1
      by_cases h2 : searchTerm = ("")
      · subst h2
        simp [h1, hb1]
      · have hb2 : (searchTerm == ("")) = false := by simpa using h2
        simp [h1, h2, hb1, hb2, List.filter_filter, Bool.and_comm]

/-- Counterexample for C1 as stated, on two of its pages.  Members: a
member whose phone field is "A1", searched for with the term "A1" under
status 'All' — the spec's case-insensitive predicate keeps the member, but
the code lowercases only the term and matches the raw phone, so the
displayed list drops it.  Payments: with an empty search term, status
'All' and the member-id column sorted descending, the displayed list is
the re-sorted `[cexPayment2, cexPayment1]`, not the filtered collection
`[cexPayment1, cexPayment2]` the claim promises. -/
theorem members_filter_spec_counterexample :
    (Members.filterEffect
        [⟨1, (""), (""), ("A1"), (""), (""), ("Active"), (""), (""), 18, (""), ("")⟩]
        ("A1") ("All") ≠
      Members.specFilteredView
        [⟨1, (""), (""), ("A1"), (""), (""), ("Active"), (""), (""), 18, (""), ("")⟩]
        ("A1") ("All")) ∧
    (Payments.applyFilters [cexPayment1, cexPayment2] [] ("") ("All")
        ⟨some Payments.Key.memberId, Payments.Direction.desc⟩ ≠
      [cexPayment1, cexPayment2].filter (fun p =>
        ((("All") == ("All")) || p.status == ("All")) &&
        ((("") == ("")) || Payments.textMatch [] (jsToLower ("")) p))) := by
  constructor
  · decide
  · intro h
    have hfil : ([cexPayment1, cexPayment2].filter (fun p =>
        ((("All") == ("All")) || p.status == ("All")) &&
        ((("") == ("")) || Payments.textMatch [] (jsToLower ("")) p))) =
        [cexPayment1, cexPayment2] := by
      simp
    rw [hfil] at h
    have hp : (Payments.sortItems [cexPayment1, cexPayment2]
        ⟨some Payments.Key.memberId, Payments.Direction.desc⟩).Pairwise
        (fun a b => Payments.keyLt Payments.Key.memberId a b = false) :=
      pairwise_of_mergeSort_lt (fun x y => Payments.keyLt Payments.Key.memberId y x)
        (fun a b hab => keyLt_asym Payments.Key.memberId b a hab)
        (fun a b c hca => Or.symm (keyLt_conn Payments.Key.memberId c b a hca))
        [cexPayment1, cexPayment2]
    have happ : Payments.applyFilters [cexPayment1, cexPayment2] [] ("") ("All")
        ⟨some Payments.Key.memberId, Payments.Direction.desc⟩ =
        Payments.sortItems [cexPayment1, cexPayment2]
          ⟨some Payments.Key.memberId, Payments.Direction.desc⟩ := rfl
    rw [happ] at h
    rw [h] at hp
    have hrel := (List.pairwise_cons.mp hp).1 cexPayment2 (List.mem_cons_self cexPayment2 [])
    exact absurd hrel (by decide)

/-- C2: for every payment list and selected key, `sortItems` returns a
permutation of the list ordered by that single field in the configured
direction, and `requestSort` selects ascending order unless the requested
field is already the ascending-sorted key, in which case it toggles to
descending; the new displayed list is the old one re-sorted under the new
configuration. -/
theorem payments_sort_and_toggle (items filteredPayments : List Payments.Payment)
    (k : Payments.Key) (dir : Payments.Direction) (cfg : Payments.SortConfig) :
    (Payments.sortItems items ⟨some k, dir⟩).Perm items ∧
    Payments.sortedByKey k dir (Payments.sortItems items ⟨some k, dir⟩) ∧
    ((Payments.requestSort cfg filteredPayments k).1.key = some k) ∧
    (cfg.key = some k ∧ cfg.direction = Payments.Direction.asc →
      (Payments.requestSort cfg filteredPayments k).1.direction =
        Payments.Direction.desc) ∧
    (¬(cfg.key = some k ∧ cfg.direction = Payments.Direction.asc) →
      (Payments.requestSort cfg filteredPayments k).1.direction =
        Payments.Direction.asc) ∧
    ((Payments.requestSort cfg filteredPayments k).2 =
      Payments.sortItems filteredPayments (Payments.requestSort cfg filteredPayments k).1) := by
  refine ⟨?_, ?_, rfl, ?_, ?_, rfl⟩
  · show (items.mergeSort _).Perm items
    exact List.mergeSort_perm items _
  · cases dir
    · show (items.mergeSort (fun a b => !(Payments.keyLt k b a))).Pairwise
        (fun a b => Payments.keyLt k b a = false)
      exact pairwise_of_mergeSort_lt (Payments.keyLt k) (keyLt_asym k) (keyLt_conn k) items
    · show (items.mergeSort (fun a b => !(Payments.keyLt k a b))).Pairwise
        (fun a b => Payments.keyLt k a b = false)
      exact pairwise_of_mergeSort_lt (fun x y => Payments.keyLt k y x)
        (fun a b h => keyLt_asym k b a h)
        (fun a b c h => Or.symm (keyLt_conn k c b a h)) items
  · intro h
    simp only [Payments.requestSort]
    exact if_pos h
  · intro h
    simp only [Payments.requestSort]
    exact if_neg h

/-- Witness for C2: when the amount column is already the ascending-sorted
key, requesting a sort on amount toggles the direction to descending. -/
theorem payments_sort_and_toggle_witness :
    ((⟨some Payments.Key.amount, Payments.Direction.asc⟩ :
        Payments.SortConfig).key = some Payments.Key.amount ∧
      (⟨some Payments.Key.amount, Payments.Direction.asc⟩ :
        Payments.SortConfig).direction = Payments.Direction.asc) ∧
    (Payments.requestSort ⟨some Payments.Key.amount, Payments.Direction.asc⟩ []
        Payments.Key.amount).1.direction = Payments.Direction.desc :=
  ⟨⟨rfl, rfl⟩,
    (payments_sort_and_toggle [] [] Payments.Key.amount Payments.Direction.asc
      ⟨some Payments.Key.amount, Payments.Direction.asc⟩).2.2.2.1 ⟨rfl, rfl⟩⟩

/-- C9: for a time string built from an hour whose digits parse to
`H ≤ 23` and colon-free minutes, `formatTime` renders the 12-hour form:
the displayed hour is `H mod 12` with 0 replaced by 12, the minutes pass
through unchanged, and the suffix is PM exactly when `H ≥ 12`. -/
theorem formatTime_twelve_hour (H : Nat) (hs mm : String) (hH : H ≤ 23)
    (hhs : ':' ∉ hs.data) (hmm : ':' ∉ mm.data)
    (hparse : jsParseInt hs.data = some H) :
    Schedule.formatTime (hs ++ (":") ++ mm) =
      toString (if H % 12 = 0 then 12 else H % 12) ++ (":") ++ mm ++ (" ") ++
        (if 12 ≤ H then ("PM") else ("AM")) := by
  have hdata : (hs ++ (":") ++ mm).data = hs.data ++ ':' :: mm.data := by
    rw [String.data_append, String.data_append]
    simp
  simp only [Schedule.formatTime, hdata]
  rw [jsSplitColon_append hs.data mm.data hhs, jsSplitColon_noColon mm.data hmm]
  simp only [List.getD_cons_zero, List.getD_cons_succ]
  rw [hparse]

/-- Witness for C9: hour 0 with minutes 30 renders as "12:30 AM". -/
theorem formatTime_twelve_hour_witness :
    ((0 : Nat) ≤ 23 ∧ jsParseInt ("0" : String).data = some 0) ∧
    Schedule.formatTime (("0") ++ (":") ++ ("30")) =
      toString (if (0 : Nat) % 12 = 0 then 12 else (0 : Nat) % 12) ++ (":") ++
        ("30") ++ (" ") ++ (if 12 ≤ (0 : Nat) then ("PM") else ("AM")) :=
  ⟨⟨by decide, by decide⟩,
    formatTime_twelve_hour 0 ("0") ("30") (by decide) (by decide) (by decide)
      (by decide)⟩
